import Mathlib

/-!
Verification development for the GoExpress repository (Ridwan414/go-framework).

The repository's implemented code (src/lab-1/goexpress.go, src/lab-1/config.go)
is embedded shallowly below: the `Engine`, its configuration, the `ServeHTTP`
entry point over an explicit response-writer state, and the error handling of
`Run`.  The routing trie, middleware pipeline and route groups described in the
specification are not implemented anywhere in the repository (the repository
contains only Lab 01 of the tutorial series); those components are modelled
from the specification's own words, as marked in their doc comments.
-/

set_option autoImplicit false

namespace GoExpress

/-! ## Association lists

String-keyed association lists with last-write-wins update, used for the
trie's static children, the per-method root table, captured parameters and
response headers. -/

/-- Look up the value bound to a key in an association list. -/
def alistFind {β : Type} : List (String × β) → String → Option β
  | [], _ => none
  | (k, v) :: rest, key => if k = key then some v else alistFind rest key

/-- Bind a key to a value in an association list, replacing any existing
binding for that key and keeping keys unique. -/
def alistSet {β : Type} : List (String × β) → String → β → List (String × β)
  | [], key, v => [(key, v)]
  | (k, w) :: rest, key, v =>
      if k = key then (key, v) :: rest else (k, w) :: alistSet rest key v

/-! ## Path segmentation

Modelled from the spec: "split the path into non-empty segments
(leading/trailing slashes collapse to an empty segment list for path `/`)". -/

/-- Accumulating worker for `splitPath`: walks the characters of the path,
collecting the current segment in reverse in `acc` and emitting it at each
slash; empty segments (from duplicate or edge slashes) are dropped. -/
def splitAux : List Char → List Char → List String
  | [], acc => if acc.isEmpty then [] else [String.mk acc.reverse]
  | c :: cs, acc =>
      if c = '/' then
        if acc.isEmpty then splitAux cs [] else String.mk acc.reverse :: splitAux cs []
      else splitAux cs (c :: acc)

/-- Split a path into its non-empty slash-delimited segments. -/
def splitPath (s : String) : List String :=
  splitAux s.data []

/-- Join segments with a single slash between consecutive segments,
used for the wildcard capture ("all remaining segments joined by `/`"). -/
def joinSlash : List String → String
  | [] => ""
  | [s] => s
  | s :: rest => s ++ "/" ++ joinSlash rest

/-! ## Segment specs and pattern parsing

Modelled from the spec: "A segment spec is one of: *static* (exact literal
match), *param* (`:name`, matches exactly one non-empty segment, captured by
name), *wildcard* (`*name`, matches one or more remaining segments greedily,
must be the final spec in a pattern, captured as a single slash-joined
string)." -/

/-- One segment spec of a route pattern. -/
inductive SegSpec where
  | static (s : String) : SegSpec
  | param (name : String) : SegSpec
  | wildcard (name : String) : SegSpec
deriving DecidableEq

/-- Parse a single pattern segment: a leading colon declares a parameter,
a leading star declares a wildcard, anything else is a static literal. -/
def parseSeg (s : String) : SegSpec :=
  match s.data with
  | ':' :: rest => SegSpec.param (String.mk rest)
  | '*' :: rest => SegSpec.wildcard (String.mk rest)
  | _ => SegSpec.static s

/-- Parse a route pattern string into its list of segment specs. -/
def parsePattern (p : String) : List SegSpec :=
  (splitPath p).map parseSeg

/-- A pattern's segment specs are well-placed when any wildcard spec is the
final spec; modelled from the spec's `InvalidPatternError` condition
"a wildcard spec is not the final segment". -/
def wildcardOk : List SegSpec → Bool
  | [] => true
  | SegSpec.wildcard _ :: rest => rest.isEmpty
  | SegSpec.static _ :: rest => wildcardOk rest
  | SegSpec.param _ :: rest => wildcardOk rest

/-! ## The path trie

Modelled from the spec: "Each node holds: a mapping from literal segment text
to child static node (keys unique), at most one child param node, at most one
child wildcard node (terminal), and an optional handler if a route pattern
ends exactly at this node."  Handlers are opaque and represented by numeric
identifiers.  The wildcard child is terminal ("a wildcard child, if present,
has no children of its own"), so it is stored as its capture name paired with
its handler. -/

/-- A node of the path trie. -/
inductive Node where
  | mk : List (String × Node) → Option (String × Node) → Option (String × Nat) →
      Option Nat → Node

/-- The static children of a node, keyed by literal segment text. -/
def Node.statics : Node → List (String × Node)
  | .mk s _ _ _ => s

/-- The at-most-one param child of a node: its declared name and subtree. -/
def Node.paramChild : Node → Option (String × Node)
  | .mk _ p _ _ => p

/-- The at-most-one terminal wildcard child of a node: its declared name and
handler. -/
def Node.wildcardChild : Node → Option (String × Nat)
  | .mk _ _ w _ => w

/-- The handler registered at this node, when a route pattern ends here. -/
def Node.handler : Node → Option Nat
  | .mk _ _ _ h => h

/-- A node with no children and no handler. -/
def emptyNode : Node := Node.mk [] none none none

/-- Registration errors, modelled from the spec's taxonomy: `ConflictError`
for an identical (method, pattern) pair already registered,
`InvalidPatternError` for a non-final wildcard or a second, differently named
parameter at the same position. -/
inductive RegError where
  | conflict : RegError
  | invalidPattern : RegError
deriving DecidableEq

/-- Insert a parsed pattern into a trie rooted at `n`, modelled from the
spec's registration contract: reaching a node where the pattern already ends
with a handler is a `ConflictError`; a wildcard spec followed by further
specs, or a param spec whose name differs from an existing param child at the
same position, is an `InvalidPatternError`; a wildcard spec where a wildcard
child already exists is a conflict when the names agree (identical pattern)
and invalid otherwise. -/
def insertNode : Node → List SegSpec → Nat → Except RegError Node
  | n, [], h =>
      match n.handler with
      | some _ => Except.error RegError.conflict
      | none => Except.ok (Node.mk n.statics n.paramChild n.wildcardChild (some h))
  | n, SegSpec.static s :: rest, h =>
      match insertNode ((alistFind n.statics s).getD emptyNode) rest h with
      | Except.error e => Except.error e
      | Except.ok c =>
          Except.ok (Node.mk (alistSet n.statics s c) n.paramChild n.wildcardChild n.handler)
  | n, SegSpec.param a :: rest, h =>
      match n.paramChild with
      | some (a', child) =>
          if a' = a then
            match insertNode child rest h with
            | Except.error e => Except.error e
            | Except.ok c =>
                Except.ok (Node.mk n.statics (some (a, c)) n.wildcardChild n.handler)
          else Except.error RegError.invalidPattern
      | none =>
          match insertNode emptyNode rest h with
          | Except.error e => Except.error e
          | Except.ok c =>
              Except.ok (Node.mk n.statics (some (a, c)) n.wildcardChild n.handler)
  | n, SegSpec.wildcard w :: rest, h =>
      match rest with
      | _ :: _ => Except.error RegError.invalidPattern
      | [] =>
          match n.wildcardChild with
          | some (w', _) =>
              if w' = w then Except.error RegError.conflict
              else Except.error RegError.invalidPattern
          | none => Except.ok (Node.mk n.statics n.paramChild (some (w, h)) n.handler)

/-- A router: a trie root per HTTP method, modelled from the spec
("stores route patterns per HTTP method", "the root for the requested
method"). -/
abbrev Router := List (String × Node)

/-- The router with no routes registered. -/
def emptyRouter : Router := []

/-- Modelled from the spec: `Register(method, pattern, handler)` parses the
pattern and inserts it into the trie for the method, failing with
`ConflictError` or `InvalidPatternError` as described at `insertNode`; on
failure no router is produced, so a route can never be silently dropped. -/
def Register (r : Router) (m p : String) (h : Nat) : Except RegError Router :=
  match insertNode ((alistFind r m).getD emptyNode) (parsePattern p) h with
  | Except.error e => Except.error e
  | Except.ok root => Except.ok (alistSet r m root)

/-- One registration request: method, pattern, handler identifier. -/
abbrev RegEntry := String × String × Nat

/-- Perform a sequence of registrations starting from `r`, stopping at the
first failure; models the single-threaded build phase of the router, where a
registration failure aborts startup. -/
def applyRegs : Router → List RegEntry → Except RegError Router
  | r, [] => Except.ok r
  | r, (m, p, h) :: rest =>
      match Register r m p h with
      | Except.error e => Except.error e
      | Except.ok r' => applyRegs r' rest

/-- Walk the trie from `n` over the remaining request segments, with `ps`
the parameters captured so far.  Modelled from the spec's matching
algorithm: "At each node, precedence is: (1) exact static child match,
(2) param child (captures the current segment under its declared name,
matches unconditionally if present), (3) wildcard child (captures all
remaining segments joined by `/`, terminates the walk immediately)"; no
backtracking is performed. -/
def matchNode : Node → List String → List (String × String) →
    Option (Nat × List (String × String))
  | n, [], ps =>
      match n.handler with
      | some h => some (h, ps)
      | none => none
  | n, seg :: rest, ps =>
      match alistFind n.statics seg with
      | some child => matchNode child rest ps
      | none =>
          match n.paramChild with
          | some (a, child) => matchNode child rest (ps ++ [(a, seg)])
          | none =>
              match n.wildcardChild with
              | some (w, h) => some (h, ps ++ [(w, joinSlash (seg :: rest))])
              | none => none

/-- Modelled from the spec: `Match(method, path)` walks the trie for the
method over the path's segments and returns the handler and the captured
parameter mapping, or no result on a miss. -/
def RouterMatch (r : Router) (m path : String) :
    Option (Nat × List (String × String)) :=
  matchNode ((alistFind r m).getD emptyNode) (splitPath path) []

/-- The handler stored in the trie at the exact end of a parsed pattern, if
that pattern is present; this is the trie-level meaning of "the (method,
pattern) pair is registered". -/
def patternHandler : Node → List SegSpec → Option Nat
  | n, [] => n.handler
  | n, SegSpec.static s :: rest =>
      (alistFind n.statics s).bind (fun c => patternHandler c rest)
  | n, SegSpec.param a :: rest =>
      match n.paramChild with
      | some (a', c) => if a' = a then patternHandler c rest else none
      | none => none
  | n, SegSpec.wildcard w :: rest =>
      match n.wildcardChild with
      | some (w', h) => if w' = w ∧ rest = [] then some h else none
      | none => none

/-- Router-level form of `patternHandler`, reading the trie for method `m`. -/
def patternHandlerR (r : Router) (m : String) (specs : List SegSpec) : Option Nat :=
  patternHandler ((alistFind r m).getD emptyNode) specs

/-- The name of the param child found after descending the static children
along `segs`; used to express the spec's "the trie holds only one param child
per node" registration constraint. -/
def paramNameAt : Node → List String → Option String
  | n, [] => n.paramChild.map Prod.fst
  | n, s :: rest => (alistFind n.statics s).bind (fun c => paramNameAt c rest)

/-- Router-level form of `paramNameAt`. -/
def paramNameAtR (r : Router) (m : String) (segs : List String) : Option String :=
  paramNameAt ((alistFind r m).getD emptyNode) segs

/-- Concrete registration history: a static route and a param route sharing
the `/users` node. -/
def c3regs : List RegEntry := [("GET", "/users/new", 1), ("GET", "/users/:id", 2)]

/-- The router built from `c3regs` (registration succeeds, as witnessed by
computation). -/
def c3router : Router :=
  match applyRegs emptyRouter c3regs with
  | Except.ok r => r
  | Except.error _ => emptyRouter

/-- Concrete registration history: a single param route under `/users`. -/
def c6regs : List RegEntry := [("GET", "/users/:id", 1)]

/-- The router built from `c6regs`. -/
def c6router : Router :=
  match applyRegs emptyRouter c6regs with
  | Except.ok r => r
  | Except.error _ => emptyRouter

/-! ## The implemented engine (src/lab-1/goexpress.go, src/lab-1/config.go)

A shallow embedding of the code the repository actually contains.  The HTTP
response writer is modelled as explicit state: a header association list, an
optional status code (written at most once, with the net/http rule that the
first write fixes it and a body write defaults it to 200), and a body
buffer. -/

/-- The state of an HTTP response writer. -/
structure ResponseWriter where
  headers : List (String × String)
  status : Option Nat
  body : String
deriving DecidableEq

/-- A fresh response writer: no headers, no status written, empty body. -/
def emptyWriter : ResponseWriter := { headers := [], status := none, body := "" }

/-- `w.Header().Set(name, value)`: set a response header. -/
def setHeader (w : ResponseWriter) (name value : String) : ResponseWriter :=
  { w with headers := alistSet w.headers name value }

/-- `w.WriteHeader(code)`: write the status code; the first write wins. -/
def writeHeader (w : ResponseWriter) (code : Nat) : ResponseWriter :=
  { w with status := some (w.status.getD code) }

/-- `fmt.Fprintf(w, ...)` / `w.Write(...)`: append to the body, defaulting
the status to 200 if no status was written yet. -/
def writeBody (w : ResponseWriter) (s : String) : ResponseWriter :=
  { w with status := some (w.status.getD 200), body := w.body ++ s }

/-- Config from src/lab-1/config.go; `time.Duration` values are embedded as
nanosecond counts. -/
structure Config where
  Port : String
  ReadTimeout : Nat
  WriteTimeout : Nat
deriving DecidableEq

/-- One second of `time.Duration`, in nanoseconds. -/
def timeSecond : Nat := 1000000000

/-- `DefaultConfig` from src/lab-1/config.go: port ":8080" and 10-second
read and write timeouts. -/
def DefaultConfig : Config :=
  { Port := ":8080", ReadTimeout := 10 * timeSecond, WriteTimeout := 10 * timeSecond }

/-- The body of `Engine.ServeHTTP` from src/lab-1/goexpress.go: set the
Content-Type header, write status 200, then write the greeting line and the
method/path echo line.  The engine receiver is not consulted by the source,
so the behaviour is a function of the request's method and path only. -/
def serveHTTPcore (method path : String) (w : ResponseWriter) : ResponseWriter :=
  writeBody
    (writeBody (writeHeader (setHeader w "Content-Type" "text/plain") 200)
      "Hello from GoExpress!\n")
    ("You requested: " ++ method ++ " " ++ path ++ "\n")

/-- The inner `http.Server` built by `NewWithConfig`: address, handler
function, and timeouts.  The Go code stores the engine itself as the
server's handler; since a Lean structure cannot contain itself, the field
holds the engine's request-handling function. -/
structure HttpServer where
  Addr : String
  Handler : String → String → ResponseWriter → ResponseWriter
  ReadTimeout : Nat
  WriteTimeout : Nat

/-- `Engine` from src/lab-1/goexpress.go: configuration plus inner server. -/
structure Engine where
  config : Config
  server : HttpServer

/-- `Engine.ServeHTTP`: the engine's request entry point; the source ignores
the receiver entirely. -/
def Engine.ServeHTTP (_ : Engine) (method path : String)
    (w : ResponseWriter) : ResponseWriter :=
  serveHTTPcore method path w

/-- `NewWithConfig` from src/lab-1/goexpress.go: build the engine and its
inner server with the config's address and timeouts, installing the engine's
own request handler (`Handler: engine` in the source). -/
def NewWithConfig (config : Config) : Engine :=
  { config := config
  , server :=
      { Addr := config.Port
      , Handler := serveHTTPcore
      , ReadTimeout := config.ReadTimeout
      , WriteTimeout := config.WriteTimeout } }

/-- `New` from src/lab-1/goexpress.go: an engine with default config. -/
def New : Engine := NewWithConfig DefaultConfig

/-- Go error values as they appear in `Engine.Run`: the distinguished
`http.ErrServerClosed`, plain errors, and errors wrapped by
`fmt.Errorf("...: %w", err)`. -/
inductive GoError where
  | errServerClosed : GoError
  | simple (msg : String) : GoError
  | wrapped (msg : String) (inner : GoError) : GoError
deriving DecidableEq

/-- `Engine.Run` from src/lab-1/goexpress.go, as a function of the result of
the inner `ListenAndServe` call (`none` models a nil error): a non-nil error
other than `http.ErrServerClosed` is returned wrapped as "server error",
otherwise `Run` returns nil. -/
def Engine.Run (_ : Engine) (listenResult : Option GoError) : Option GoError :=
  match listenResult with
  | some e =>
      if e ≠ GoError.errServerClosed then some (GoError.wrapped "server error" e)
      else none
  | none => none

/-! ## Middleware pipeline

Modelled from the spec: an interceptor is "a function taking the Context and
an explicit continuation handle"; the resolved chain is the middleware list
followed by the terminal handler; a fault raised downstream is a first-class
error outcome which a recovery interceptor converts into a 500 response. -/

/-- A fault raised by a handler or interceptor (a Go panic). -/
inductive Fault where
  | err (msg : String) : Fault

/-- A middleware interceptor over contexts of type `α`: it receives the
context and the continuation for the remainder of the chain, and produces
either a context or an uncaught fault. -/
def MW (α : Type) : Type := α → (α → Except Fault α) → Except Fault α

/-- Run a chain of interceptors around a terminal handler, modelled from the
spec's execution model: each interceptor is invoked with the continuation
that runs the remainder of the chain. -/
def runChain {α : Type} : List (MW α) → (α → Except Fault α) → α → Except Fault α
  | [], h, c => h c
  | mw :: rest, h, c => mw c (runChain rest h)

/-- An interceptor that runs `pre`, invokes its continuation exactly once,
and runs `post` on the continuation's result — the spec's "before" and
"after" phases around downstream execution. -/
def wrapMW {α : Type} (pre post : α → α) : MW α :=
  fun c next => Except.map post (next (pre c))

/-- The per-request response state seen by the recovery interceptor. -/
structure PCtx where
  status : Nat
  body : String
deriving DecidableEq

/-- The generic 500 response installed by the recovery interceptor. -/
def faultResponse : PCtx := { status := 500, body := "Internal Server Error" }

/-- Modelled from the spec's recovery policy: wrap the continuation call in a
fault boundary; on an uncaught fault, discard the partial response, answer
with a generic 500, and do not propagate the fault further up. -/
def recoveryMW : MW PCtx :=
  fun c next =>
    match next c with
    | Except.ok c' => Except.ok c'
    | Except.error _ => Except.ok faultResponse

/-! ## Route groups

Modelled from the spec: `Group(prefix)` returns a view "whose effective
prefix is the parent's effective prefix concatenated with the given prefix
(path-joined, collapsing duplicate separators)"; registering through a group
forwards the prefixed path to the router's `Register`. -/

/-- Rebuild a path from its non-empty segments with single separators and a
leading slash. -/
def normalizePath (s : String) : String :=
  "/" ++ joinSlash (splitPath s)

/-- Join two path fragments, collapsing duplicate separators. -/
def joinPaths (a b : String) : String :=
  normalizePath (a ++ "/" ++ b)

/-- A route group: its effective (fully resolved) path prefix. -/
structure RouterGroup where
  basePath : String

/-- The root group of an engine, with an empty effective prefix. -/
def rootGroup : RouterGroup := { basePath := "" }

/-- `Group(prefix)` on a group: the child group's effective prefix is the
parent's effective prefix path-joined with the given prefix. -/
def groupChild (g : RouterGroup) (pre : String) : RouterGroup :=
  { basePath := joinPaths g.basePath pre }

/-- Registering a route through a group: the full pattern is the group's
effective prefix path-joined with the given path, forwarded to `Register`. -/
def groupRegister (g : RouterGroup) (m p : String) (h : Nat) (r : Router) :
    Except RegError Router :=
  Register r m (joinPaths g.basePath p) h

end GoExpress

namespace GoExpress

/-! ## Lemmas about association lists -/

/-- Looking up a key just set finds the value just bound. -/
theorem alistFind_set_self {β : Type} (l : List (String × β)) (k : String) (v : β) :
    alistFind (alistSet l k v) k = some v := by
  induction l with
  | nil => simp [alistSet, alistFind]
  | cons kv rest ih =>
      obtain ⟨k0, v0⟩ := kv
      by_cases h : k0 = k
      · simp [alistSet, alistFind, h]
      · simp [alistSet, alistFind, h, ih]

/-- Setting one key does not change lookups of a different key. -/
theorem alistFind_set_ne {β : Type} (l : List (String × β)) (k k' : String) (v : β)
    (hne : k ≠ k') : alistFind (alistSet l k v) k' = alistFind l k' := by
  induction l with
  | nil => simp [alistSet, alistFind, hne]
  | cons kv rest ih =>
      obtain ⟨k0, v0⟩ := kv
      by_cases h : k0 = k
      · subst h
        simp [alistSet, alistFind, hne]
      · by_cases h' : k0 = k'
        · subst h'
          simp [alistSet, alistFind, h, Ne.symm hne]
        · simp [alistSet, alistFind, h, h', ih]

/-! ## Lemmas about trie insertion and lookup -/

/-- A successful insertion stores the handler at the exact end of the
inserted pattern. -/
theorem insert_sets_patternHandler (specs : List SegSpec) :
    ∀ (n n' : Node) (h : Nat), insertNode n specs h = Except.ok n' →
      patternHandler n' specs = some h := by
  induction specs with
  | nil =>
      intro n n' h hins
      simp only [insertNode] at hins
      cases hh : n.handler with
      | some x => rw [hh] at hins; cases hins
      | none =>
          rw [hh] at hins
          injection hins with hins
          subst hins
          simp [patternHandler, Node.handler]
  | cons spec rest ih =>
      intro n n' h hins
      cases spec with
      | static s =>
          simp only [insertNode] at hins
          cases hc : insertNode ((alistFind n.statics s).getD emptyNode) rest h with
          | error e => rw [hc] at hins; cases hins
          | ok c =>
              rw [hc] at hins
              injection hins with hins
              subst hins
              simp [patternHandler, Node.statics, alistFind_set_self, ih _ _ _ hc]
      | param a =>
          obtain ⟨st, pc, wc, hd⟩ := n
          simp only [insertNode, Node.statics, Node.paramChild, Node.wildcardChild,
            Node.handler] at hins
          cases pc with
          | some pr =>
              obtain ⟨a', child⟩ := pr
              dsimp only at hins
              by_cases ha : a' = a
              · rw [if_pos ha] at hins
                cases hc : insertNode child rest h with
                | error e => rw [hc] at hins; cases hins
                | ok c =>
                    rw [hc] at hins
                    injection hins with hins
                    subst hins
                    simp [patternHandler, Node.paramChild, ih _ _ _ hc]
              · rw [if_neg ha] at hins; cases hins
          | none =>
              cases hc : insertNode emptyNode rest h with
              | error e => rw [hc] at hins; cases hins
              | ok c =>
                  rw [hc] at hins
                  injection hins with hins
                  subst hins
                  simp [patternHandler, Node.paramChild, ih _ _ _ hc]
      | wildcard w =>
          obtain ⟨st, pc, wc, hd⟩ := n
          simp only [insertNode, Node.statics, Node.paramChild, Node.wildcardChild,
            Node.handler] at hins
          cases rest with
          | cons r rs => cases hins
          | nil =>
              cases wc with
              | some pr =>
                  obtain ⟨w', h0⟩ := pr
                  dsimp only at hins
                  by_cases hw : w' = w
                  · rw [if_pos hw] at hins; cases hins
                  · rw [if_neg hw] at hins; cases hins
              | none =>
                  injection hins with hins
                  subst hins
                  simp [patternHandler, Node.wildcardChild]

/-- Re-inserting a pattern whose end already carries a handler fails with a
conflict: the identical (method, pattern) pair is already registered. -/
theorem patternHandler_insert_conflict (specs : List SegSpec) :
    ∀ (n : Node) (h h' : Nat), patternHandler n specs = some h →
      insertNode n specs h' = Except.error RegError.conflict := by
  induction specs with
  | nil =>
      intro n h h' hp
      simp only [patternHandler] at hp
      simp [insertNode, hp]
  | cons spec rest ih =>
      intro n h h' hp
      cases spec with
      | static s =>
          simp only [patternHandler] at hp
          cases hf : alistFind n.statics s with
          | none => rw [hf] at hp; cases hp
          | some c =>
              rw [hf] at hp
              simp only [Option.bind] at hp
              simp [insertNode, hf, ih _ _ h' hp]
      | param a =>
          simp only [patternHandler] at hp
          cases hpc : n.paramChild with
          | none => rw [hpc] at hp; cases hp
          | some pr =>
              obtain ⟨a', child⟩ := pr
              rw [hpc] at hp
              dsimp only at hp
              by_cases ha : a' = a
              · rw [if_pos ha] at hp
                simp [insertNode, hpc, ha, ih _ _ h' hp]
              · rw [if_neg ha] at hp; cases hp
      | wildcard w =>
          simp only [patternHandler] at hp
          cases hwc : n.wildcardChild with
          | none => rw [hwc] at hp; cases hp
          | some pr =>
              obtain ⟨w', h0⟩ := pr
              rw [hwc] at hp
              dsimp only at hp
              by_cases hw : w' = w ∧ rest = []
              · obtain ⟨hw1, hw2⟩ := hw
                subst hw2
                simp [insertNode, hwc, hw1]
              · rw [if_neg hw] at hp; cases hp

/-- Inserting a pattern with a non-final wildcard spec always fails with
`InvalidPatternError`. -/
theorem insert_nonfinal_wildcard (specs : List SegSpec) :
    ∀ (n : Node) (h : Nat), wildcardOk specs = false →
      insertNode n specs h = Except.error RegError.invalidPattern := by
  induction specs with
  | nil => intro n h hw; cases hw
  | cons spec rest ih =>
      intro n h hw
      cases spec with
      | static s =>
          simp only [wildcardOk] at hw
          simp [insertNode, ih _ h hw]
      | param a =>
          simp only [wildcardOk] at hw
          cases hpc : n.paramChild with
          | none => simp [insertNode, hpc, ih _ h hw]
          | some pr =>
              obtain ⟨a', child⟩ := pr
              by_cases ha : a' = a
              · simp [insertNode, hpc, ha, ih _ h hw]
              · simp [insertNode, hpc, ha]
      | wildcard w =>
          simp only [wildcardOk] at hw
          cases rest with
          | nil => cases hw
          | cons r rs => simp [insertNode]

/-- A successful insertion never disturbs the handler stored at the end of
any already-present pattern: registration only extends the trie. -/
theorem insert_preserves_patternHandler (specs2 : List SegSpec) :
    ∀ (specs : List SegSpec) (n n' : Node) (h h2 : Nat),
      insertNode n specs2 h2 = Except.ok n' →
      patternHandler n specs = some h → patternHandler n' specs = some h := by
  induction specs2 with
  | nil =>
      intro specs n n' h h2 hins hp
      simp only [insertNode] at hins
      cases hh : n.handler with
      | some x => rw [hh] at hins; cases hins
      | none =>
          rw [hh] at hins
          injection hins with hins
          subst hins
          cases specs with
          | nil => simp only [patternHandler] at hp; rw [hh] at hp; cases hp
          | cons spec rest =>
              cases spec with
              | static s =>
                  simp only [patternHandler, Node.statics] at hp ⊢
                  exact hp
              | param a =>
                  simp only [patternHandler, Node.paramChild] at hp ⊢
                  exact hp
              | wildcard w =>
                  simp only [patternHandler, Node.wildcardChild] at hp ⊢
                  exact hp
  | cons spec2 rest2 ih =>
      intro specs n n' h h2 hins hp
      cases spec2 with
      | static s2 =>
          obtain ⟨st, pc, wc, hd⟩ := n
          simp only [insertNode, Node.statics, Node.paramChild, Node.wildcardChild,
            Node.handler] at hins
          cases hc : insertNode ((alistFind st s2).getD emptyNode) rest2 h2 with
          | error e => rw [hc] at hins; cases hins
          | ok c =>
              rw [hc] at hins
              injection hins with hins
              subst hins
              cases specs with
              | nil =>
                  simp only [patternHandler, Node.handler] at hp ⊢
                  exact hp
              | cons spec rest =>
                  cases spec with
                  | static s =>
                      simp only [patternHandler, Node.statics] at hp ⊢
                      cases hf : alistFind st s with
                      | none => rw [hf] at hp; cases hp
                      | some cOld =>
                          rw [hf] at hp
                          simp only [Option.bind] at hp
                          by_cases hs : s2 = s
                          · subst hs
                            rw [hf] at hc
                            simp only [Option.getD] at hc
                            rw [alistFind_set_self]
                            simp only [Option.bind]
                            exact ih rest cOld c h h2 hc hp
                          · rw [alistFind_set_ne _ _ _ _ hs, hf]
                            simp only [Option.bind]
                            exact hp
                  | param a =>
                      simp only [patternHandler, Node.paramChild] at hp ⊢
                      exact hp
                  | wildcard w =>
                      simp only [patternHandler, Node.wildcardChild] at hp ⊢
                      exact hp
      | param a2 =>
          simp only [insertNode] at hins
          cases hpc : n.paramChild with
          | some pr =>
              obtain ⟨a', child⟩ := pr
              rw [hpc] at hins
              dsimp only at hins
              by_cases ha : a' = a2
              · rw [if_pos ha] at hins
                subst ha
                cases hc : insertNode child rest2 h2 with
                | error e => rw [hc] at hins; cases hins
                | ok c =>
                    rw [hc] at hins
                    injection hins with hins
                    subst hins
                    cases specs with
                    | nil =>
                        simp only [patternHandler] at hp
                        simp only [patternHandler, Node.handler]
                        exact hp
                    | cons spec rest =>
                        cases spec with
                        | static s =>
                            simp only [patternHandler, Node.statics] at hp ⊢
                            exact hp
                        | param a =>
                            simp only [patternHandler] at hp
                            rw [hpc] at hp
                            dsimp only at hp
                            by_cases haa : a' = a
                            · rw [if_pos haa] at hp
                              simp only [patternHandler, Node.paramChild]
                              rw [if_pos haa]
                              exact ih rest child c h h2 hc hp
                            · rw [if_neg haa] at hp; cases hp
                        | wildcard w =>
                            simp only [patternHandler, Node.wildcardChild] at hp ⊢
                            exact hp
              · rw [if_neg ha] at hins; cases hins
          | none =>
              rw [hpc] at hins
              dsimp only at hins
              cases hc : insertNode emptyNode rest2 h2 with
              | error e => rw [hc] at hins; cases hins
              | ok c =>
                  rw [hc] at hins
                  injection hins with hins
                  subst hins
                  cases specs with
                  | nil =>
                      simp only [patternHandler] at hp
                      simp only [patternHandler, Node.handler]
                      exact hp
                  | cons spec rest =>
                      cases spec with
                      | static s =>
                          simp only [patternHandler, Node.statics] at hp ⊢
                          exact hp
                      | param a =>
                          simp only [patternHandler] at hp
                          rw [hpc] at hp
                          cases hp
                      | wildcard w =>
                          simp only [patternHandler, Node.wildcardChild] at hp ⊢
                          exact hp
      | wildcard w2 =>
          simp only [insertNode] at hins
          cases rest2 with
          | cons r rs => cases hins
          | nil =>
              cases hwc : n.wildcardChild with
              | some pr =>
                  obtain ⟨w', h0⟩ := pr
                  rw [hwc] at hins
                  dsimp only at hins
                  by_cases hw : w' = w2
                  · rw [if_pos hw] at hins; cases hins
                  · rw [if_neg hw] at hins; cases hins
              | none =>
                  rw [hwc] at hins
                  dsimp only at hins
                  injection hins with hins
                  subst hins
                  cases specs with
                  | nil =>
                      simp only [patternHandler] at hp
                      simp only [patternHandler, Node.handler]
                      exact hp
                  | cons spec rest =>
                      cases spec with
                      | static s =>
                          simp only [patternHandler, Node.statics] at hp ⊢
                          exact hp
                      | param a =>
                          simp only [patternHandler, Node.paramChild] at hp ⊢
                          exact hp
                      | wildcard w =>
                          simp only [patternHandler] at hp
                          rw [hwc] at hp
                          cases hp

/-- When a fully static pattern with handler `h` is present in the trie, the
matching walk over its own segments commits to static children at every node
(static precedence) and returns `h` with no captures added. -/
theorem matchNode_static (segs : List String) :
    ∀ (n : Node) (h : Nat) (ps : List (String × String)),
      patternHandler n (segs.map SegSpec.static) = some h →
      matchNode n segs ps = some (h, ps) := by
  induction segs with
  | nil =>
      intro n h ps hp
      simp only [List.map_nil, patternHandler] at hp
      simp [matchNode, hp]
  | cons s rest ih =>
      intro n h ps hp
      simp only [List.map_cons, patternHandler] at hp
      cases hf : alistFind n.statics s with
      | none => rw [hf] at hp; cases hp
      | some c =>
          rw [hf] at hp
          simp only [Option.bind] at hp
          simp [matchNode, hf, ih _ h ps hp]

/-- A registered pattern consisting of a static prefix followed by a param
spec named `a` forces the param child at the end of that static prefix to be
named `a`. -/
theorem paramNameAt_of_patternHandler (ss : List String) :
    ∀ (n : Node) (a : String) (r1 : List SegSpec) (h : Nat),
      patternHandler n (ss.map SegSpec.static ++ SegSpec.param a :: r1) = some h →
      paramNameAt n ss = some a := by
  induction ss with
  | nil =>
      intro n a r1 h hp
      simp only [List.map_nil, List.nil_append, patternHandler] at hp
      cases hpc : n.paramChild with
      | none => rw [hpc] at hp; cases hp
      | some pr =>
          obtain ⟨a', child⟩ := pr
          rw [hpc] at hp
          dsimp only at hp
          by_cases ha : a' = a
          · simp [paramNameAt, hpc, ha]
          · rw [if_neg ha] at hp; cases hp
  | cons s rest ih =>
      intro n a r1 h hp
      simp only [List.map_cons, List.cons_append, patternHandler] at hp
      cases hf : alistFind n.statics s with
      | none => rw [hf] at hp; cases hp
      | some c =>
          rw [hf] at hp
          simp only [Option.bind] at hp
          simp [paramNameAt, hf, ih _ a r1 h hp]

/-- Registering a param spec under a static prefix whose node already has a
param child with a different name fails with `InvalidPatternError`: the trie
holds only one param child per node. -/
theorem paramName_insert_invalid (ss : List String) :
    ∀ (n : Node) (a b : String) (r2 : List SegSpec) (h : Nat),
      paramNameAt n ss = some a → a ≠ b →
      insertNode n (ss.map SegSpec.static ++ SegSpec.param b :: r2) h =
        Except.error RegError.invalidPattern := by
  induction ss with
  | nil =>
      intro n a b r2 h hp hne
      simp only [paramNameAt] at hp
      cases hpc : n.paramChild with
      | none => rw [hpc] at hp; cases hp
      | some pr =>
          obtain ⟨a', child⟩ := pr
          rw [hpc] at hp
          simp only [Option.map] at hp
          injection hp with hp
          subst hp
          simp [insertNode, hpc, hne]
  | cons s rest ih =>
      intro n a b r2 h hp hne
      simp only [paramNameAt] at hp
      cases hf : alistFind n.statics s with
      | none => rw [hf] at hp; cases hp
      | some c =>
          rw [hf] at hp
          simp only [Option.bind] at hp
          simp [insertNode, hf, ih _ a b r2 h hp hne]

/-! ## Router-level lemmas -/

/-- A successful `Register` stores the handler at the end of the registered
pattern in the method's trie. -/
theorem Register_sets_patternHandler (r r' : Router) (m p : String) (h : Nat)
    (hreg : Register r m p h = Except.ok r') :
    patternHandlerR r' m (parsePattern p) = some h := by
  simp only [Register] at hreg
  cases hins : insertNode ((alistFind r m).getD emptyNode) (parsePattern p) h with
  | error e => rw [hins] at hreg; cases hreg
  | ok root =>
      rw [hins] at hreg
      injection hreg with hreg
      subst hreg
      simp only [patternHandlerR, alistFind_set_self, Option.getD]
      exact insert_sets_patternHandler _ _ _ _ hins

/-- A successful `Register` of any route preserves the handler stored at the
end of every already-registered pattern, for every method. -/
theorem Register_preserves_patternHandler (r r' : Router) (m2 p2 : String) (h2 : Nat)
    (m : String) (specs : List SegSpec) (h : Nat)
    (hreg : Register r m2 p2 h2 = Except.ok r')
    (hp : patternHandlerR r m specs = some h) :
    patternHandlerR r' m specs = some h := by
  simp only [Register] at hreg
  cases hins : insertNode ((alistFind r m2).getD emptyNode) (parsePattern p2) h2 with
  | error e => rw [hins] at hreg; cases hreg
  | ok root =>
      rw [hins] at hreg
      injection hreg with hreg
      subst hreg
      by_cases hm : m2 = m
      · subst hm
        simp only [patternHandlerR, alistFind_set_self, Option.getD]
        exact insert_preserves_patternHandler _ _ _ _ _ _ hins hp
      · simp only [patternHandlerR, alistFind_set_ne _ _ _ _ hm]
        exact hp

/-- When the trie already holds a handler at the end of a pattern,
re-registering the identical (method, pattern) pair fails with a conflict. -/
theorem Register_conflict (r : Router) (m p : String) (h h' : Nat)
    (hp : patternHandlerR r m (parsePattern p) = some h) :
    Register r m p h' = Except.error RegError.conflict := by
  simp only [patternHandlerR] at hp
  simp only [Register, patternHandler_insert_conflict _ _ _ h' hp]

/-- Registering any pattern with a non-final wildcard fails with
`InvalidPatternError`, on every router. -/
theorem Register_invalid_wildcard (r : Router) (m p : String) (h : Nat)
    (hw : wildcardOk (parsePattern p) = false) :
    Register r m p h = Except.error RegError.invalidPattern := by
  simp only [Register, insert_nonfinal_wildcard _ _ h hw]

/-- Registering a param spec at a position whose node already carries a
differently named param child fails with `InvalidPatternError`. -/
theorem Register_invalid_param (r : Router) (m p : String) (h : Nat)
    (ss : List String) (a b : String) (r2 : List SegSpec)
    (hname : paramNameAtR r m ss = some a) (hne : a ≠ b)
    (hparse : parsePattern p = ss.map SegSpec.static ++ SegSpec.param b :: r2) :
    Register r m p h = Except.error RegError.invalidPattern := by
  simp only [paramNameAtR] at hname
  simp only [Register, hparse, paramName_insert_invalid _ _ _ _ _ h hname hne]

/-! ## Registration-history lemmas -/

/-- Any property preserved by every successful single registration is
preserved by a successful registration sequence. -/
theorem applyRegs_preserve (P : Router → Prop)
    (hstep : ∀ r m p h r', Register r m p h = Except.ok r' → P r → P r') :
    ∀ (regs : List RegEntry) (r0 r : Router),
      applyRegs r0 regs = Except.ok r → P r0 → P r := by
  intro regs
  induction regs with
  | nil =>
      intro r0 r happ hP
      simp only [applyRegs] at happ
      injection happ with happ
      subst happ
      exact hP
  | cons e rest ih =>
      intro r0 r happ hP
      obtain ⟨m, p, h⟩ := e
      simp only [applyRegs] at happ
      cases hreg : Register r0 m p h with
      | error err => rw [hreg] at happ; cases happ
      | ok r1 =>
          rw [hreg] at happ
          exact ih r1 r happ (hstep r0 m p h r1 hreg hP)

/-- After a successful registration sequence containing the entry
`(m, p, h)`, the trie for method `m` holds handler `h` at the end of
pattern `p`: registration installs the route and later registrations never
displace it. -/
theorem applyRegs_mem_patternHandler :
    ∀ (regs : List RegEntry) (r0 r : Router) (m p : String) (h : Nat),
      (m, p, h) ∈ regs → applyRegs r0 regs = Except.ok r →
      patternHandlerR r m (parsePattern p) = some h := by
  intro regs
  induction regs with
  | nil => intro r0 r m p h hmem; cases hmem
  | cons e rest ih =>
      intro r0 r m p h hmem happ
      obtain ⟨m', p', h'⟩ := e
      simp only [applyRegs] at happ
      cases hreg : Register r0 m' p' h' with
      | error err => rw [hreg] at happ; cases happ
      | ok r1 =>
          rw [hreg] at happ
          cases hmem with
          | head =>
              exact applyRegs_preserve
                (fun rr => patternHandlerR rr m (parsePattern p) = some h)
                (fun ra ma pa ha ra' hra hPa =>
                  Register_preserves_patternHandler ra ra' ma pa ha m _ h hra hPa)
                rest r1 r happ (Register_sets_patternHandler r0 r1 m p h hreg)
          | tail _ hmem' => exact ih r1 r m p h hmem' happ

/-- A successful registration sequence registers every listed entry: the
sequence up to any entry succeeds and that entry's own registration
succeeds, so no route is ever silently dropped (a failure would instead
abort the whole sequence). -/
theorem applyRegs_append_ok (pre : List RegEntry) :
    ∀ (m p : String) (h : Nat) (post : List RegEntry) (r0 r : Router),
      applyRegs r0 (pre ++ (m, p, h) :: post) = Except.ok r →
      ∃ r1 r2, applyRegs r0 pre = Except.ok r1 ∧ Register r1 m p h = Except.ok r2 := by
  induction pre with
  | nil =>
      intro m p h post r0 r happ
      simp only [List.nil_append, applyRegs] at happ
      cases hreg : Register r0 m p h with
      | error err => rw [hreg] at happ; cases happ
      | ok r2 => exact ⟨r0, r2, rfl, hreg⟩
  | cons e rest ih =>
      intro m p h post r0 r happ
      obtain ⟨m', p', h'⟩ := e
      simp only [List.cons_append, applyRegs] at happ
      cases hreg : Register r0 m' p' h' with
      | error err => rw [hreg] at happ; cases happ
      | ok r1 =>
          rw [hreg] at happ
          obtain ⟨ra, rb, hra, hrb⟩ := ih m p h post r1 r happ
          refine ⟨ra, rb, ?_, hrb⟩
          simp only [applyRegs, hreg]
          exact hra

/-! ## Claim theorems -/

/-- Claim C1, counterexample: the claim says a request whose path matches no
registered route pattern yields a 404 outcome, but the program's entry point
`Engine.ServeHTTP` answers the unregistered path `/notfound` with status 200,
never 404 or 405 — the program registers no routes at all, so every path is
unmatched, and the entry point still answers 200. -/
theorem claim_C1_counterexample :
    (New.ServeHTTP "GET" "/notfound" emptyWriter).status = some 200 ∧
    (New.ServeHTTP "GET" "/notfound" emptyWriter).status ≠ some 404 ∧
    (New.ServeHTTP "GET" "/notfound" emptyWriter).status ≠ some 405 :=
  ⟨rfl, by decide, by decide⟩

/-- Claim C1, amended: for every request dispatched through the framework's
entry point, whatever the method and path, the outcome is status 200 — never
a not-found (404) or method-not-allowed (405) signal — because the entry
point performs no route matching. -/
theorem claim_C1 (e : Engine) (method path : String) :
    (e.ServeHTTP method path emptyWriter).status = some 200 ∧
    (e.ServeHTTP method path emptyWriter).status ≠ some 404 ∧
    (e.ServeHTTP method path emptyWriter).status ≠ some 405 :=
  ⟨rfl, by exact (by decide : (some 200 : Option Nat) ≠ some 404),
   by exact (by decide : (some 200 : Option Nat) ≠ some 405)⟩

/-- Claim C2, counterexample: the claim quantifies over every router in
which `/users/:id` is registered, but in a router that also registers the
static route `/users/123`, the request `/users/123` resolves by static
precedence to the static handler 2 with no captured parameters, so
`Param("id")` is absent rather than `"123"`. -/
theorem claim_C2_counterexample :
    (applyRegs emptyRouter [("GET", "/users/:id", 1), ("GET", "/users/123", 2)]).map
        (fun r => (RouterMatch r "GET" "/users/123").map
          (fun res => (res.1, alistFind res.2 "id"))) =
      Except.ok (some (2, none)) := rfl

/-- Claim C2, amended: in the router built by registering exactly
`/users/:id`, matching `/users/123` succeeds with `Param("id") = "123"`, and
in the router built by registering exactly `/files/*filepath`, matching
`/files/a/b/c` succeeds with `Param("filepath") = "a/b/c"` (the wildcard
capture joins the remaining segments with `/`). -/
theorem claim_C2 :
    (applyRegs emptyRouter [("GET", "/users/:id", 1)]).map
        (fun r => (RouterMatch r "GET" "/users/123").map
          (fun res => (res.1, alistFind res.2 "id"))) =
      Except.ok (some (1, some "123")) ∧
    (applyRegs emptyRouter [("GET", "/files/*filepath", 1)]).map
        (fun r => (RouterMatch r "GET" "/files/a/b/c").map
          (fun res => (res.1, alistFind res.2 "filepath"))) =
      Except.ok (some (1, some "a/b/c")) :=
  ⟨rfl, rfl⟩

/-- Claim C3: in every router whose successful registration history contains
the static route `/users/new` (with handler `h1`) and the param route
`/users/:id`, the request `/users/new` resolves to the static handler `h1`
with no captured parameters — the param handler is never chosen, because at
each node an exact static child takes precedence over the param child. -/
theorem claim_C3 (regs : List RegEntry) (r : Router) (m : String) (h1 h2 : Nat)
    (hstatic : (m, "/users/new", h1) ∈ regs)
    (_hparam : (m, "/users/:id", h2) ∈ regs)
    (happ : applyRegs emptyRouter regs = Except.ok r) :
    RouterMatch r m "/users/new" = some (h1, []) := by
  have hph := applyRegs_mem_patternHandler regs emptyRouter r m "/users/new" h1 hstatic happ
  simp only [patternHandlerR] at hph
  have hparse : parsePattern "/users/new" = (["users", "new"]).map SegSpec.static := rfl
  rw [hparse] at hph
  have hsplit : splitPath "/users/new" = ["users", "new"] := rfl
  simp only [RouterMatch, hsplit]
  exact matchNode_static _ _ _ _ hph

/-- Claim C3 witness: in the concrete router registering `/users/new` with
handler 1 and `/users/:id` with handler 2, the request `/users/new` resolves
to handler 1 with no captures. -/
theorem claim_C3_witness : RouterMatch c3router "GET" "/users/new" = some (1, []) :=
  claim_C3 c3regs c3router "GET" 1 2 (List.Mem.head _)
    (List.Mem.tail _ (List.Mem.head _)) rfl

/-- Claim C4: for middleware registered in order [A, B] around a terminal
handler, where each interceptor runs its "before" phase, invokes its
continuation exactly once, and runs its "after" phase on the result, the
execution nests as A-before, B-before, handler, B-after, A-after. -/
theorem claim_C4 {α : Type} (preA postA preB postB : α → α) (hTerm : α → α) (c : α) :
    runChain [wrapMW preA postA, wrapMW preB postB] (fun x => Except.ok (hTerm x)) c =
      Except.ok (postA (postB (hTerm (preB (preA c))))) := rfl

/-- Claim C5: with a recovery interceptor first in the chain, any fault
raised while running the rest of the chain (downstream interceptors or the
terminal handler) is caught at the recovery boundary: the request completes
without a fault escaping (no process-level termination) and the response is
the generic 500. -/
theorem claim_C5 (mws : List (MW PCtx)) (hTerm : PCtx → Except Fault PCtx)
    (c : PCtx) (f : Fault)
    (hfault : runChain mws hTerm c = Except.error f) :
    runChain (recoveryMW :: mws) hTerm c = Except.ok faultResponse := by
  simp only [runChain, recoveryMW, hfault]

/-- Claim C5 witness: a terminal handler that immediately raises a fault is
caught by a recovery interceptor positioned first, yielding the 500
response. -/
theorem claim_C5_witness :
    runChain [recoveryMW] (fun _ => Except.error (Fault.err "boom"))
        { status := 200, body := "" } = Except.ok faultResponse :=
  claim_C5 [] (fun _ => Except.error (Fault.err "boom"))
    { status := 200, body := "" } (Fault.err "boom") rfl

/-- Claim C6: registration fails with `ConflictError` whenever the identical
(method, pattern) pair was already successfully registered; with
`InvalidPatternError` whenever the pattern has a non-final wildcard spec, or
a param spec whose name differs from the param child already registered at
the same position under the same static prefix; and a successful
registration sequence registers every listed entry, so a failing
registration aborts startup rather than silently dropping a route. -/
theorem claim_C6 :
    (∀ (regs : List RegEntry) (r : Router) (m p : String) (h h' : Nat),
        (m, p, h) ∈ regs → applyRegs emptyRouter regs = Except.ok r →
        Register r m p h' = Except.error RegError.conflict) ∧
    (∀ (r : Router) (m p : String) (h : Nat),
        wildcardOk (parsePattern p) = false →
        Register r m p h = Except.error RegError.invalidPattern) ∧
    (∀ (regs : List RegEntry) (r : Router) (m p1 p2 : String) (h1 h' : Nat)
        (ss : List String) (a b : String) (r1 r2 : List SegSpec),
        (m, p1, h1) ∈ regs → applyRegs emptyRouter regs = Except.ok r →
        parsePattern p1 = ss.map SegSpec.static ++ SegSpec.param a :: r1 →
        parsePattern p2 = ss.map SegSpec.static ++ SegSpec.param b :: r2 →
        a ≠ b →
        Register r m p2 h' = Except.error RegError.invalidPattern) ∧
    (∀ (pre : List RegEntry) (m p : String) (h : Nat) (post : List RegEntry) (r : Router),
        applyRegs emptyRouter (pre ++ (m, p, h) :: post) = Except.ok r →
        ∃ r1 r2, applyRegs emptyRouter pre = Except.ok r1 ∧
          Register r1 m p h = Except.ok r2) := by
  refine ⟨?_, ?_, ?_, ?_⟩
  · intro regs r m p h h' hmem happ
    exact Register_conflict r m p h h'
      (applyRegs_mem_patternHandler regs emptyRouter r m p h hmem happ)
  · intro r m p h hw
    exact Register_invalid_wildcard r m p h hw
  · intro regs r m p1 p2 h1 h' ss a b r1 r2 hmem happ hp1 hp2 hne
    have hph := applyRegs_mem_patternHandler regs emptyRouter r m p1 h1 hmem happ
    simp only [patternHandlerR] at hph
    rw [hp1] at hph
    have hname : paramNameAtR r m ss = some a :=
      paramNameAt_of_patternHandler ss _ a r1 h1 hph
    exact Register_invalid_param r m p2 h' ss a b r2 hname hne hp2
  · intro pre m p h post r happ
    exact applyRegs_append_ok pre m p h post emptyRouter r happ

/-- Claim C6 witness: with `/users/:id` registered under handler 1,
re-registering the identical pair conflicts; the non-final-wildcard pattern
`/files/*fp/x` is invalid on any router; and registering `/users/:name`
(a second param name at the same position) is invalid; finally, the
successful one-entry history did register its entry. -/
theorem claim_C6_witness :
    Register c6router "GET" "/users/:id" 2 = Except.error RegError.conflict ∧
    Register emptyRouter "GET" "/files/*fp/x" 3 = Except.error RegError.invalidPattern ∧
    Register c6router "GET" "/users/:name" 2 = Except.error RegError.invalidPattern ∧
    ∃ r1 r2, applyRegs emptyRouter [] = Except.ok r1 ∧
      Register r1 "GET" "/users/:id" 1 = Except.ok r2 :=
  ⟨claim_C6.1 c6regs c6router "GET" "/users/:id" 1 2 (List.Mem.head _) rfl,
   claim_C6.2.1 emptyRouter "GET" "/files/*fp/x" 3 rfl,
   claim_C6.2.2.1 c6regs c6router "GET" "/users/:id" "/users/:name" 1 2 ["users"]
     "id" "name" [] [] (List.Mem.head _) rfl rfl rfl (by decide),
   claim_C6.2.2.2 [] "GET" "/users/:id" 1 [] c6router rfl⟩

/-- Claim C7: a child group's effective prefix is always the fold of
path-joins of the ancestor prefixes outer-to-inner, and registering
`GET /users` on the group `/api` nested under the group `/v1` produces a
route matched by request path `/v1/api/users` (with any handler). -/
theorem claim_C7 :
    (∀ (gs : List String) (g : RouterGroup),
        (gs.foldl groupChild g).basePath = gs.foldl joinPaths g.basePath) ∧
    ∀ hnd : Nat,
      (groupRegister (groupChild (groupChild rootGroup "/v1") "/api") "GET" "/users" hnd
          emptyRouter).map
        (fun r => RouterMatch r "GET" "/v1/api/users") =
      Except.ok (some (hnd, [])) := by
  constructor
  · intro gs
    induction gs with
    | nil => intro g; rfl
    | cons pre rest ih =>
        intro g
        simp only [List.foldl]
        exact ih (groupChild g pre)
  · intro hnd
    rfl

/-- Claim C8: for every HTTP request, whatever the method and path, the
entry point `Engine.ServeHTTP` answers status 200 with the Content-Type
header set to text/plain and a body consisting of the greeting line followed
by a line echoing the request's method and path. -/
theorem claim_C8 (e : Engine) (method path : String) :
    (e.ServeHTTP method path emptyWriter).status = some 200 ∧
    alistFind (e.ServeHTTP method path emptyWriter).headers "Content-Type" =
      some "text/plain" ∧
    (e.ServeHTTP method path emptyWriter).body =
      "Hello from GoExpress!\n" ++ ("You requested: " ++ method ++ " " ++ path ++ "\n") :=
  ⟨rfl, rfl, rfl⟩

/-- Claim C9: `Engine.Run` returns nil both when `ListenAndServe` returns
nil and when it returns `http.ErrServerClosed` (a graceful shutdown), and
for every other error it returns a non-nil error wrapping that error. -/
theorem claim_C9 (e : Engine) :
    e.Run none = none ∧
    e.Run (some GoError.errServerClosed) = none ∧
    ∀ err : GoError, err ≠ GoError.errServerClosed →
      e.Run (some err) = some (GoError.wrapped "server error" err) := by
  refine ⟨rfl, rfl, ?_⟩
  intro err hne
  simp [Engine.Run, hne]

/-- Claim C9 witness: a plain listen error is reported wrapped. -/
theorem claim_C9_witness :
    New.Run (some (GoError.simple "boom")) =
      some (GoError.wrapped "server error" (GoError.simple "boom")) :=
  (claim_C9 New).2.2 (GoError.simple "boom") (by decide)

/-- Claim C10: the engine built by `NewWithConfig c` has inner server
address `c.Port`, read and write timeouts from `c`, and the engine's own
request handler installed; `New` equals `NewWithConfig DefaultConfig`, so a
default engine listens on ":8080" with 10-second read and write timeouts. -/
theorem claim_C10 (c : Config) :
    (NewWithConfig c).server.Addr = c.Port ∧
    (NewWithConfig c).server.ReadTimeout = c.ReadTimeout ∧
    (NewWithConfig c).server.WriteTimeout = c.WriteTimeout ∧
    (NewWithConfig c).server.Handler = (NewWithConfig c).ServeHTTP ∧
    New = NewWithConfig DefaultConfig ∧
    New.server.Addr = ":8080" ∧
    New.server.ReadTimeout = 10 * timeSecond ∧
    New.server.WriteTimeout = 10 * timeSecond :=
  ⟨rfl, rfl, rfl, rfl, rfl, rfl, rfl, rfl⟩

end GoExpress
